import Mathlib

/-!
Verification of the tilt image-build engine excerpt (package `build` in
`websocket_reader.go` of the excerpt): the digest tagger, the fast-build
manifest synthesizer, and the docker build-output decoder.

Go strings are modelled as `List Char` so that Go's positional slicing
(`s[:16]`, `s[k:]`, `len`) and prefix tests map to `List.take`, `List.drop`,
`List.length` and `List.isPrefixOf`.
-/

namespace TiltBuild

/-- Go string model: a list of characters. -/
abbrev GoStr := List Char

/-- Modelled from the spec: the fixed literal image-tag lead string
(`ImageTagPrefix` in the source, which lies outside the excerpt; the spec
fixes only that it is a fixed literal, so a representative value is used;
no theorem below depends on the concrete characters beyond it being a
fixed non-empty literal). -/
def ImageTagHead : GoStr := "tilt-".toList

/-- `digestAsTag` (source lines 688-694): fail if the encoded hex form is
shorter than 16 characters, otherwise the fixed lead string followed by the
first 16 characters. `d.Encoded()` of the external go-digest library is
modelled by passing the encoded hex form directly. -/
def digestAsTag (dEnc : GoStr) : Except GoStr GoStr :=
  if dEnc.length < 16 then Except.error ("digest too short: ".toList ++ dEnc)
  else Except.ok (ImageTagHead ++ dEnc.take 16)

/-- `digestMatchesRef` (source lines 696-705): false when the tag is not
longer than the fixed lead string, otherwise test whether the tag's
characters from position `ImageTagHead.length` on are an initial segment of
the digest's encoded hex form (`strings.HasPrefix(digestHash, tagHash)`).
`ref.Tag()` of the external reference library is modelled by passing the tag
string directly. -/
def digestMatchesRef (tag : GoStr) (dEnc : GoStr) : Bool :=
  if tag.length ≤ ImageTagHead.length then false
  else (tag.drop ImageTagHead.length).isPrefixOf dEnc

/-- C1: `Tag(digest)` fails exactly when the encoded hex form is shorter
than 16 characters; otherwise it is the fixed lead string followed by the
first 16 hex characters, so two digests sharing that 16-character head get
identical tags. -/
theorem digestAsTag_spec (d : GoStr) :
    ((∃ e, digestAsTag d = Except.error e) ↔ d.length < 16) ∧
    (16 ≤ d.length → digestAsTag d = Except.ok (ImageTagHead ++ d.take 16)) ∧
    (∀ d2 : GoStr, 16 ≤ d.length → 16 ≤ d2.length → d.take 16 = d2.take 16 →
      digestAsTag d = digestAsTag d2) := by
  refine ⟨?_, ?_, ?_⟩
  · unfold digestAsTag
    split
    · exact ⟨fun _ => by omega, fun h => ⟨_, rfl⟩⟩
    · constructor
      · rintro ⟨e, he⟩
        cases he
      · intro h
        exact absurd h (by omega)
  · intro h
    unfold digestAsTag
    split
    · omega
    · rfl
  · intro d2 h1 h2 htake
    unfold digestAsTag
    rw [htake]
    split
    · omega
    · split
      · omega
      · rfl

/-- Witness for C1 at a concrete digest. -/
theorem digestAsTag_spec_witness :
    digestAsTag "0123456789abcdef0".toList =
      Except.ok (ImageTagHead ++ ("0123456789abcdef0".toList).take 16) :=
  (digestAsTag_spec "0123456789abcdef0".toList).2.1 (by decide)

/-- C2: `Verify(reference, digest)` is true iff the tag minus its first
`ImageTagHead.length` characters is a non-empty initial segment of the
digest's encoded hex form; equivalently, iff the tag is strictly longer than
the fixed lead string and its characters after that position are an initial
segment of the hex encoding. -/
theorem digestMatchesRef_spec (tag dEnc : GoStr) :
    (digestMatchesRef tag dEnc = true ↔
      tag.drop ImageTagHead.length ≠ [] ∧
        tag.drop ImageTagHead.length <+: dEnc) ∧
    (digestMatchesRef tag dEnc = true ↔
      ImageTagHead.length < tag.length ∧
        tag.drop ImageTagHead.length <+: dEnc) := by
  have hlen : tag.drop ImageTagHead.length ≠ [] ↔ ImageTagHead.length < tag.length := by
    rw [← List.length_pos_iff_ne_nil, List.length_drop]
    omega
  have hcore : digestMatchesRef tag dEnc = true ↔
      ImageTagHead.length < tag.length ∧ tag.drop ImageTagHead.length <+: dEnc := by
    unfold digestMatchesRef
    split
    · simp only [Bool.false_eq_true, false_iff, not_and]
      omega
    · rw [List.isPrefixOf_iff_prefix]
      constructor
      · exact fun h => ⟨by omega, h⟩
      · exact fun h => h.2
  exact ⟨by rw [hcore, hlen], hcore⟩

/-- Witness for C2 at a concrete reference tag and digest. -/
theorem digestMatchesRef_spec_witness :
    digestMatchesRef "tilt-abc".toList "abcdef".toList = true ∧
      ("tilt-abc".toList.drop ImageTagHead.length ≠ [] ∧
        "tilt-abc".toList.drop ImageTagHead.length <+: "abcdef".toList) := by
  have h := (digestMatchesRef_spec "tilt-abc".toList "abcdef".toList).1
  refine ⟨?_, ?_⟩
  · exact h.mpr (by refine ⟨by decide, ⟨"def".toList, by decide⟩⟩)
  · exact h.mp (by decide)

/-- C3 counterexample: a reference whose tag carries only one hex character
after the fixed lead string verifies against a digest whose full tag is
different, so `Verify` is not equivalent to `Tag(digest) == reference.Tag()`. -/
theorem digestMatchesRef_ne_tagEq_counterexample :
    digestMatchesRef (ImageTagHead ++ "a".toList) "aaaaaaaaaaaaaaaa".toList = true ∧
      digestAsTag "aaaaaaaaaaaaaaaa".toList ≠ Except.ok (ImageTagHead ++ "a".toList) := by
  constructor
  · decide
  · intro h
    rw [show digestAsTag "aaaaaaaaaaaaaaaa".toList =
      Except.ok (ImageTagHead ++ ("aaaaaaaaaaaaaaaa".toList).take 16) from rfl] at h
    exact absurd (Except.ok.inj h) (by decide)

/-- C3 (amended): if `Tag(digest)` succeeds and equals the reference's tag,
then `Verify(reference, digest)` is true; the converse does not hold. -/
theorem digestAsTag_eq_implies_matchesRef (tag dEnc : GoStr)
    (h : digestAsTag dEnc = Except.ok tag) :
    digestMatchesRef tag dEnc = true := by
  unfold digestAsTag at h
  split at h
  · cases h
  · rename_i hlen
    cases h
    unfold digestMatchesRef
    split
    · rename_i hle
      simp only [List.length_append, List.length_take] at hle
      omega
    · rw [List.isPrefixOf_iff_prefix, List.drop_left]
      exact List.take_prefix 16 dEnc

/-- Witness for the amended C3 at a concrete digest. -/
theorem digestAsTag_eq_implies_matchesRef_witness :
    digestMatchesRef (ImageTagHead ++ "0123456789abcdef".toList)
      "0123456789abcdefff".toList = true :=
  digestAsTag_eq_implies_matchesRef _ _ rfl

/-- C9: `Verify` never examines the first `ImageTagHead.length` characters
of the tag — its value depends only on the tag's length and the characters
after that position — and any tag longer than the lead string whose
characters after that position are an initial segment of the hex encoding
verifies, whether or not the tag begins with the lead string. -/
theorem digestMatchesRef_headIndependent :
    (∀ t1 t2 d : GoStr, t1.length = t2.length →
        t1.drop ImageTagHead.length = t2.drop ImageTagHead.length →
        digestMatchesRef t1 d = digestMatchesRef t2 d) ∧
    (∀ t d : GoStr, ImageTagHead.length < t.length →
        (t.drop ImageTagHead.length).isPrefixOf d = true →
        digestMatchesRef t d = true) := by
  constructor
  · intro t1 t2 d hlen hdrop
    unfold digestMatchesRef
    rw [hlen, hdrop]
  · intro t d hlen hpre
    unfold digestMatchesRef
    split
    · omega
    · exact hpre

/-- Witness for C9: a tag that does not begin with the fixed lead string
still verifies, and head-character changes do not affect the result. -/
theorem digestMatchesRef_headIndependent_witness :
    digestMatchesRef "XXXXXabc".toList "abcdef".toList = true ∧
      digestMatchesRef "XXXXXabc".toList "abcdef".toList =
        digestMatchesRef "tilt-abc".toList "abcdef".toList := by
  constructor
  · exact digestMatchesRef_headIndependent.2 "XXXXXabc".toList "abcdef".toList
      (by decide) (by decide)
  · exact digestMatchesRef_headIndependent.1 "XXXXXabc".toList "tilt-abc".toList
      "abcdef".toList (by decide) (by decide)

/-! ### Manifest synthesizer (`DeprecatedFastBuildImage` / `addConditionalRuns`) -/

/-- `PathMapping` (§3 of the spec; constructed in `BuildImage`, consumed by
`addConditionalRuns`): a local-filesystem-to-build-context correspondence. -/
structure PathMapping where
  localPath : GoStr
  containerPath : GoStr
deriving DecidableEq

/-- `model.Run` (external to the excerpt). Modelled from the spec: a command
gated by a file-trigger matcher; an empty trigger list means "always run". -/
structure FastRun where
  cmd : GoStr
  triggers : List GoStr
deriving DecidableEq

/-- One build-manifest instruction. Modelled from the spec (§3,
`BuildManifest`): the `dockerfile` package is external to the excerpt, so the
manifest is the ordered sequence of instructions appended to it —
`df.Join("COPY src dst")`, `df.Run(cmd)`, `df.AddAll()`, `df.Entrypoint(...)`
and `df.WithLabel(k, v)`. -/
inductive Instr where
  | copy (src dst : GoStr)
  | runCmd (cmd : GoStr)
  | addAll
  | entrypoint (cmd : List GoStr)
  | label (key value : GoStr)
deriving DecidableEq

/-- `ignore.CreateRunMatcher` + `FilterMappings` (external to the excerpt).
Modelled from the spec (§4.1 step 2): the subset of path mappings whose
container path matches the run's trigger matcher. -/
def matchedPaths (paths : List PathMapping) (r : FastRun) : List PathMapping :=
  paths.filter (fun p => r.triggers.contains p.containerPath)

/-- `addConditionalRuns` (source lines 287-332): while runs have non-empty
triggers, append one copy-instruction per matched path (source path equals
destination path) then the run-instruction; stop at the first run with empty
triggers; fail when a non-empty trigger matches no paths. Returns the grown
manifest and the remaining (unconsumed) runs, `runs[consumed:]`. -/
def addConditionalRuns (paths : List PathMapping) :
    List Instr → List FastRun → Except GoStr (List Instr × List FastRun)
  | df, [] => Except.ok (df, [])
  | df, r :: rest =>
    if r.triggers.isEmpty then Except.ok (df, r :: rest)
    else
      let pathsToAdd := matchedPaths paths r
      if pathsToAdd.isEmpty then
        Except.error ("No inputs for run: ".toList ++ r.cmd)
      else
        addConditionalRuns paths
          (df ++ pathsToAdd.map (fun p => Instr.copy p.containerPath p.containerPath)
              ++ [Instr.runCmd r.cmd])
          rest

/-- Modelled from the spec (§4.1 step 6): the reserved build-mode label key
(`BuildMode` in the source, outside the excerpt). -/
def BuildModeLabelKey : GoStr := "tilt.buildMode".toList

/-- Modelled from the spec: the build-mode label value used by
`DeprecatedFastBuildImage` (`BuildModeScratch` in the source, outside the
excerpt). -/
def BuildModeScratch : GoStr := "scratch".toList

/-- The manifest-synthesis part of `DeprecatedFastBuildImage` (source lines
249-275) together with `applyLabels` (277-283) and `addRemainingRuns`
(350-355): conditional-run pass, catch-all `AddAll`, remaining runs,
optional entrypoint, build-mode label then extra labels (the Go map is
modelled as an iteration-ordered association list). An error from the
conditional-run pass is wrapped with the operation name. -/
def fastBuildDf (base : List Instr) (runs : List FastRun) (paths : List PathMapping)
    (entry : List GoStr) (extraLabels : List (GoStr × GoStr)) :
    Except GoStr (List Instr) :=
  match addConditionalRuns paths base runs with
  | Except.error e => Except.error ("DeprecatedFastBuildImage: ".toList ++ e)
  | Except.ok (df, remaining) =>
    let df := df ++ [Instr.addAll]
    let df := df ++ remaining.map (fun r => Instr.runCmd r.cmd)
    let df := if entry.isEmpty then df else df ++ [Instr.entrypoint entry]
    let df := df ++ [Instr.label BuildModeLabelKey BuildModeScratch]
        ++ extraLabels.map (fun kv => Instr.label kv.1 kv.2)
    Except.ok df

/-- The runs consumed by the conditional pass: the longest head segment of
runs with non-empty triggers (written from the spec's words, to be compared
with `addConditionalRuns`). -/
def condRunsOf (runs : List FastRun) : List FastRun :=
  runs.takeWhile (fun r => !r.triggers.isEmpty)

/-- The runs left for the unconditional pass (written from the spec's
words). -/
def remainingRunsOf (runs : List FastRun) : List FastRun :=
  runs.dropWhile (fun r => !r.triggers.isEmpty)

/-- The instructions the spec prescribes for the conditional pass: per
consumed run, one copy-instruction per matched path mapping followed by that
run's run-instruction (written from the spec's words). -/
def condRunInstrs (paths : List PathMapping) (runs : List FastRun) : List Instr :=
  (condRunsOf runs).flatMap
    (fun r => (matchedPaths paths r).map (fun p => Instr.copy p.containerPath p.containerPath)
      ++ [Instr.runCmd r.cmd])

lemma addConditionalRuns_eq (paths : List PathMapping) (runs : List FastRun)
    (h : ∀ r ∈ condRunsOf runs, matchedPaths paths r ≠ []) :
    ∀ df, addConditionalRuns paths df runs =
      Except.ok (df ++ condRunInstrs paths runs, remainingRunsOf runs) := by
  induction runs with
  | nil =>
    intro df
    simp [addConditionalRuns, condRunInstrs, condRunsOf, remainingRunsOf]
  | cons r rest ih =>
    intro df
    by_cases hr : r.triggers.isEmpty
    · simp [addConditionalRuns, hr, condRunInstrs, condRunsOf, remainingRunsOf,
        List.takeWhile_cons, List.dropWhile_cons]
    · have hcons : condRunsOf (r :: rest) = r :: condRunsOf rest := by
        simp [condRunsOf, List.takeWhile_cons, hr]
      have hmatch : matchedPaths paths r ≠ [] := by
        apply h
        rw [hcons]
        exact List.mem_cons_self r _
      have ih' := ih (fun q hq => h q (by
        rw [hcons]
        exact List.mem_cons_of_mem _ hq))
      simp only [addConditionalRuns, hr, if_false, Bool.false_eq_true]
      rw [if_neg (by simpa using hmatch), ih']
      simp only [condRunInstrs, condRunsOf, remainingRunsOf, List.takeWhile_cons,
        List.dropWhile_cons, hr]
      simp [List.append_assoc]

/-- C4: the synthesized manifest is exactly — base, then per conditional-
prefix run its matched copy-instructions followed by its run-instruction,
then the catch-all copy-instruction, then every remaining run (in original
order, unconditionally, including later runs with non-empty triggers), then
the optional entrypoint and the labels; in particular with no conditional
runs the catch-all copy-instruction directly follows the base and no
run-instruction precedes it. -/
theorem fastBuildDf_structure (base : List Instr) (runs : List FastRun)
    (paths : List PathMapping) (entry : List GoStr)
    (extraLabels : List (GoStr × GoStr))
    (h : ∀ r ∈ condRunsOf runs, matchedPaths paths r ≠ []) :
    fastBuildDf base runs paths entry extraLabels =
      Except.ok (base ++ condRunInstrs paths runs ++ [Instr.addAll]
        ++ (remainingRunsOf runs).map (fun r => Instr.runCmd r.cmd)
        ++ (if entry.isEmpty then [] else [Instr.entrypoint entry])
        ++ [Instr.label BuildModeLabelKey BuildModeScratch]
        ++ extraLabels.map (fun kv => Instr.label kv.1 kv.2)) ∧
    ((∀ r ∈ runs, r.triggers = []) →
      fastBuildDf base runs paths entry extraLabels =
        Except.ok (base ++ [Instr.addAll]
          ++ runs.map (fun r => Instr.runCmd r.cmd)
          ++ (if entry.isEmpty then [] else [Instr.entrypoint entry])
          ++ [Instr.label BuildModeLabelKey BuildModeScratch]
          ++ extraLabels.map (fun kv => Instr.label kv.1 kv.2))) := by
  have hmain : fastBuildDf base runs paths entry extraLabels =
      Except.ok (base ++ condRunInstrs paths runs ++ [Instr.addAll]
        ++ (remainingRunsOf runs).map (fun r => Instr.runCmd r.cmd)
        ++ (if entry.isEmpty then [] else [Instr.entrypoint entry])
        ++ [Instr.label BuildModeLabelKey BuildModeScratch]
        ++ extraLabels.map (fun kv => Instr.label kv.1 kv.2)) := by
    unfold fastBuildDf
    rw [addConditionalRuns_eq paths runs h base]
    by_cases he : entry.isEmpty
    · simp [he, List.append_assoc]
    · simp [he, List.append_assoc]
  refine ⟨hmain, fun hall => ?_⟩
  have hcond : condRunsOf runs = [] := by
    cases runs with
    | nil => simp [condRunsOf]
    | cons r rest =>
      have : r.triggers = [] := hall r (List.mem_cons_self r rest)
      simp [condRunsOf, List.takeWhile_cons, this]
  have hrem : remainingRunsOf runs = runs := by
    cases runs with
    | nil => simp [remainingRunsOf]
    | cons r rest =>
      have : r.triggers = [] := hall r (List.mem_cons_self r rest)
      simp [remainingRunsOf, List.dropWhile_cons, this]
  have hci : condRunInstrs paths runs = [] := by simp [condRunInstrs, hcond]
  rw [hmain, hci, hrem]
  simp

/-- Witness for C4: the spec's §8 scenario — one conditional run matching
one path, one unconditional run, no entrypoint, no extra labels. -/
theorem fastBuildDf_structure_witness :
    fastBuildDf [] [⟨"npm install".toList, ["/package.json".toList]⟩,
        ⟨"npm build".toList, []⟩]
      [⟨"/src/package.json".toList, "/package.json".toList⟩] [] [] =
      Except.ok [Instr.copy "/package.json".toList "/package.json".toList,
        Instr.runCmd "npm install".toList, Instr.addAll,
        Instr.runCmd "npm build".toList,
        Instr.label BuildModeLabelKey BuildModeScratch] := by
  have h := (fastBuildDf_structure []
    [⟨"npm install".toList, ["/package.json".toList]⟩, ⟨"npm build".toList, []⟩]
    [⟨"/src/package.json".toList, "/package.json".toList⟩] [] []
    (by decide)).1
  rw [h]
  congr 1

lemma addConditionalRuns_noInputs (paths : List PathMapping) (pre : List FastRun)
    (r : FastRun) (post : List FastRun)
    (hpre : ∀ q ∈ pre, q.triggers ≠ [] ∧ matchedPaths paths q ≠ [])
    (hr : r.triggers ≠ []) (hmatch : matchedPaths paths r = []) :
    ∀ df, addConditionalRuns paths df (pre ++ r :: post) =
      Except.error ("No inputs for run: ".toList ++ r.cmd) := by
  induction pre with
  | nil =>
    intro df
    simp only [List.nil_append, addConditionalRuns]
    rw [if_neg (by simpa using hr), if_pos (by simpa using hmatch)]
  | cons q rest ih =>
    intro df
    have hq := hpre q (List.mem_cons_self q rest)
    simp only [List.cons_append, addConditionalRuns]
    rw [if_neg (by simpa using hq.1), if_neg (by simpa using hq.2)]
    exact ih (fun p hp => hpre p (List.mem_cons_of_mem _ hp)) _

/-- C5: a conditional-prefix run whose non-empty trigger set matches zero
path mappings makes synthesis fail with a configuration error naming that
run's command; no manifest is produced. -/
theorem fastBuildDf_noInputs (base : List Instr) (paths : List PathMapping)
    (pre : List FastRun) (r : FastRun) (post : List FastRun)
    (entry : List GoStr) (extraLabels : List (GoStr × GoStr))
    (hpre : ∀ q ∈ pre, q.triggers ≠ [] ∧ matchedPaths paths q ≠ [])
    (hr : r.triggers ≠ []) (hmatch : matchedPaths paths r = []) :
    fastBuildDf base (pre ++ r :: post) paths entry extraLabels =
      Except.error ("DeprecatedFastBuildImage: ".toList
        ++ "No inputs for run: ".toList ++ r.cmd) := by
  unfold fastBuildDf
  rw [addConditionalRuns_noInputs paths pre r post hpre hr hmatch base]
  simp [List.append_assoc]

/-- Witness for C5: a conditional run whose trigger matches no path mapping. -/
theorem fastBuildDf_noInputs_witness :
    fastBuildDf [] [⟨"npm install".toList, ["/gone.json".toList]⟩]
      [⟨"/src/a".toList, "/a".toList⟩] [] [] =
      Except.error ("DeprecatedFastBuildImage: ".toList
        ++ "No inputs for run: ".toList ++ "npm install".toList) :=
  fastBuildDf_noInputs [] [⟨"/src/a".toList, "/a".toList⟩] []
    ⟨"npm install".toList, ["/gone.json".toList]⟩ [] [] []
    (by intro q hq; cases hq) (by decide) (by decide)

/-! ### Build-output decoder (`readDockerOutput` and friends) -/

/-- `jsonmessage.JSONProgress`: the current/total counters (int64 in Go). -/
structure JSONProgress where
  current : Int
  total : Int
deriving DecidableEq

instance {ε α : Type} [DecidableEq ε] [DecidableEq α] : DecidableEq (Except ε α) :=
  fun x y =>
  match x, y with
  | Except.error a, Except.error b =>
    if h : a = b then Decidable.isTrue (by rw [h])
    else Decidable.isFalse (by intro he; cases he; exact h rfl)
  | Except.error _, Except.ok _ => Decidable.isFalse (by intro he; cases he)
  | Except.ok _, Except.error _ => Decidable.isFalse (by intro he; cases he)
  | Except.ok a, Except.ok b =>
    if h : a = b then Decidable.isTrue (by rw [h])
    else Decidable.isFalse (by intro he; cases he; exact h rfl)

/-- A raw `aux` payload (`*json.RawMessage`). The raw bytes are opaque to
the excerpt; what the code observes of them are the results of the two
decoders applied to them, so the payload is modelled by those observations:
`asBuildkit` is the result of `toBuildkitStatus` (source lines 610-621,
whose unmarshalling and `buildkitPrinter` are external), and `asDigestMap`
is the result of `json.Unmarshal` into a string-to-string map (used by
`getDigestFromAux`, source lines 674-686). -/
structure AuxRaw where
  asBuildkit : Except GoStr Unit
  asDigestMap : Except GoStr (List (GoStr × GoStr))
deriving DecidableEq

/-- `jsonmessage.JSONMessage` restricted to the fields the excerpt reads:
`Stream`, `Status`, `Progress`, `ID`, `Error` (its `Message`, field
`errorDetail`), `ErrorMessage` (field `error`) and `Aux`. -/
structure JSONMessage where
  stream : GoStr
  status : GoStr
  progressMsg : Option JSONProgress
  id : GoStr
  errorDetail : Option GoStr
  errorMessage : GoStr
  aux : Option AuxRaw
deriving DecidableEq

/-- `messageIsFromBuildkit` (source lines 654-656). -/
def messageIsFromBuildkit (m : JSONMessage) : Bool :=
  m.id == "moby.buildkit.trace".toList

/-- `dockerOutput` (source lines 709-712). -/
structure DockerOutput where
  aux : Option AuxRaw
  shortDigest : GoStr
deriving DecidableEq

/-- The zero value `dockerOutput{}` returned on every failure path. -/
def dockerOutputEmpty : DockerOutput := { aux := none, shortDigest := [] }

/-- One line written to the logging sink by the decoder: either a forwarded
stream record or a throttled progress line (`"%s: %s %s"` of id, status and
progress, recorded here with the print time). -/
inductive LogEvent where
  | stream (msg : GoStr)
  | progressLine (id status : GoStr) (current total : Int) (time : Nat)
deriving DecidableEq

/-- The decoder loop's mutable state: the two per-identifier throttle maps
(`progressLastPrinted`, `progressPrintWait`), the accumulating result and
the lines written to the logging sink so far. -/
structure LoopState where
  lastPrinted : List (GoStr × Nat)
  printWait : List (GoStr × Nat)
  result : DockerOutput
  logs : List LogEvent
deriving DecidableEq

/-- What `readDockerOutput` gives back: the Go pair (dockerOutput, error)
plus the lines it wrote to the logging sink. -/
structure ReadResult where
  output : DockerOutput
  logs : List LogEvent
  err : Option GoStr
deriving DecidableEq

/-- `[0-9a-f]` of the legacy digest pattern. -/
def isHexLower (c : Char) : Bool :=
  ('0' ≤ c && c ≤ '9') || ('a' ≤ c && c ≤ 'f')

/-- `\s` of the Go regexp package: `[\t\n\f\r ]`. -/
def isGoSpace (c : Char) : Bool :=
  c = ' ' || c = '\t' || c = '\n' || c = Char.ofNat 12 || c = '\r'

/-- `oldDigestRegexp.FindStringSubmatch` (source line 707, used at 546):
the anchored pattern `Successfully built ([0-9a-f]+)` followed by optional
whitespace to the end; returns the captured hex group on a match. Since hex
characters and whitespace are disjoint, the greedy capture is the maximal
hex run after the literal, and the remainder must be all whitespace. -/
def legacyDigestMatch (msg : GoStr) : Option GoStr :=
  let lit := "Successfully built ".toList
  if lit.isPrefixOf msg then
    let rest := msg.drop lit.length
    let hex := rest.takeWhile isHexLower
    let sp := rest.dropWhile isHexLower
    if hex ≠ [] ∧ sp.all isGoSpace then some hex else none
  else none

/-- One cleanup pattern of `dockerBuildCleanupRexes` (source lines 486-493),
each of shape `pre(g1.*g2)post` with `.*` greedy (RE2 `.`: any character but
newline) and replacement `$1`: `lead` is the literal before the capture
group's dot-star (the part of it inside the group being `g1`), `g2` the
literal closing the group and `post` the literal after it. -/
structure CleanupPat where
  lead : GoStr
  g1 : GoStr
  g2 : GoStr
  post : GoStr

/-- `(executor failed running.*): runc did not terminate sucessfully` with
replacement `$1` (sic: "sucessfully" as in the source). -/
def cleanupPat1 : CleanupPat :=
  { lead := "executor failed running".toList,
    g1 := "executor failed running".toList,
    g2 := [],
    post := ": runc did not terminate sucessfully".toList }

/-- `failed to compute cache key: (.* not found): not found` with
replacement `$1`. -/
def cleanupPat2 : CleanupPat :=
  { lead := "failed to compute cache key: ".toList,
    g1 := [],
    g2 := " not found".toList,
    post := ": not found".toList }

/-- Greedy split for `.*t`: the longest newline-free head `X` of `s` such
that `t` directly follows it; returns `X` and what remains after `t`. -/
def greedySplit (t : GoStr) : GoStr → Option (GoStr × GoStr)
  | [] => if t = [] then some ([], []) else none
  | c :: cs =>
    match (if c ≠ '\n' then greedySplit t cs else none) with
    | some (x, rest) => some (c :: x, rest)
    | none =>
      if t.isPrefixOf (c :: cs) then some ([], (c :: cs).drop t.length)
      else none

/-- Match a cleanup pattern at the start of `s` (greedy dot-star); on
success returns the capture-group text and the remainder of `s` after the
match. -/
def matchPatAt (p : CleanupPat) (s : GoStr) : Option (GoStr × GoStr) :=
  if p.lead.isPrefixOf s then
    match greedySplit (p.g2 ++ p.post) (s.drop p.lead.length) with
    | some (x, rest) => some (p.g1 ++ x ++ p.g2, rest)
    | none => none
  else none

/-- `Regexp.ReplaceAllString` with replacement `$1` for a cleanup pattern:
leftmost-first scan, each match replaced by its capture group, resuming
after the match (fuel is the string length; every match consumes at least
the non-empty `lead`). -/
def replaceAllPatAux (p : CleanupPat) : Nat → GoStr → GoStr
  | 0, s => s
  | _ + 1, [] => []
  | fuel + 1, c :: cs =>
    match matchPatAt p (c :: cs) with
    | some (g, rest) => g ++ replaceAllPatAux p fuel rest
    | none => c :: replaceAllPatAux p fuel cs

def replaceAllPat (p : CleanupPat) (s : GoStr) : GoStr :=
  replaceAllPatAux p s.length s

/-- The universally-present buildkit wrapper phrase stripped first. -/
def llbWrapText : GoStr :=
  "failed to solve with frontend dockerfile.v0: failed to build LLB: ".toList

/-- `cleanupDockerBuildError` (source lines 500-507): `strings.TrimPrefix`
of the wrapper phrase, then the two pattern replacements in order. -/
def cleanupDockerBuildError (err : GoStr) : GoStr :=
  let ret := if llbWrapText.isPrefixOf err then err.drop llbWrapText.length else err
  replaceAllPat cleanupPat2 (replaceAllPat cleanupPat1 ret)

/-- The progress-throttle step (source lines 566-587), entered for a
message with non-empty `ID` and non-nil `Progress`; `now` is the message's
arrival time (`time.Now()` / `time.Since`), durations in seconds. -/
def progressStep (st : LoopState) (now : Nat) (id : GoStr) (p : JSONProgress)
    (status : GoStr) : LoopState :=
  let lastPrinted := st.lastPrinted.lookup id
  let waitDur := (st.printWait.lookup id).getD 0
  let shouldPrint := lastPrinted.isNone || p.current == p.total ||
      decide (waitDur < now - lastPrinted.getD 0)
  let shouldSkip := p.current == 0 &&
      (status == "Waiting".toList || status == "Preparing".toList)
  if shouldPrint && !shouldSkip then
    { st with
      logs := st.logs ++ [LogEvent.progressLine id status p.current p.total now],
      lastPrinted := (id, now) :: st.lastPrinted,
      printWait := (id, if waitDur == 0 then 5 else 2 * waitDur) :: st.printWait }
  else st

/-- The stream-record phase (source lines 543-556): on a non-empty `Stream`,
record a legacy digest match into `result.shortDigest` and forward the text
to the logging sink. -/
def streamPhase (st : LoopState) (m : JSONMessage) : LoopState :=
  if m.stream.length > 0 then
    let st1 :=
      match legacyDigestMatch m.stream with
      | some h => { st with result := { st.result with shortDigest := h } }
      | none => st
    { st1 with logs := st1.logs ++ [LogEvent.stream m.stream] }
  else st

/-- The body of the decoder loop for one successfully decoded message:
either the loop continues with an updated state, or the function returns.
Field checks happen in source order: stream, `ErrorMessage`, `Error`,
progress throttle, buildkit-trace aux (whose decode failure aborts; a
buildkit-tagged message without aux dereferences nil in Go and is modelled
as a failure), then plain aux retention. -/
def stepMessage (st0 : LoopState) (now : Nat) (m : JSONMessage) :
    LoopState ⊕ ReadResult :=
  let st := streamPhase st0 m
  if m.errorMessage ≠ [] then
    Sum.inr ⟨dockerOutputEmpty, st.logs, some (cleanupDockerBuildError m.errorMessage)⟩
  else
    match m.errorDetail with
    | some em => Sum.inr ⟨dockerOutputEmpty, st.logs, some (cleanupDockerBuildError em)⟩
    | none =>
      let st :=
        if m.id ≠ [] then
          match m.progressMsg with
          | some p => progressStep st now m.id p m.status
          | none => st
        else st
      if messageIsFromBuildkit m then
        match m.aux with
        | some a =>
          match a.asBuildkit with
          | Except.error e => Sum.inr ⟨dockerOutputEmpty, st.logs, some e⟩
          | Except.ok _ => Sum.inl st
        | none => Sum.inr ⟨dockerOutputEmpty, st.logs, some "toBuildkitStatus: nil aux".toList⟩
      else
        match m.aux with
        | some a => Sum.inl { st with result := { st.result with aux := some a } }
        | none => Sum.inl st

/-- `readDockerOutput` (source lines 520-608) over an event stream: each
element carries its arrival time and either a decoded message or a JSON
decode failure (wrapped "decoding docker output"). The governing context is
taken to be uncancelled. -/
def readDockerOutputAux (st : LoopState) :
    List (Nat × Except GoStr JSONMessage) → ReadResult
  | [] => ⟨st.result, st.logs, none⟩
  | (_, Except.error e) :: _ =>
    ⟨dockerOutputEmpty, st.logs, some ("decoding docker output: ".toList ++ e)⟩
  | (now, Except.ok m) :: rest =>
    match stepMessage st now m with
    | Sum.inl st1 => readDockerOutputAux st1 rest
    | Sum.inr r => r

def initialLoopState : LoopState := ⟨[], [], dockerOutputEmpty, []⟩

def readDockerOutput (events : List (Nat × Except GoStr JSONMessage)) : ReadResult :=
  readDockerOutputAux initialLoopState events

/-- `getDigestFromAux` (source lines 674-686): decode the aux payload as a
string map and take its `"ID"` field. -/
def getDigestFromAux (a : AuxRaw) : Except GoStr GoStr :=
  match a.asDigestMap with
  | Except.error e => Except.error ("getDigestFromAux: ".toList ++ e)
  | Except.ok m =>
    match m.lookup "ID".toList with
    | none => Except.error "getDigestFromAux: ID not found".toList
    | some v => Except.ok v

/-- The distinct no-digest error (source line 671). -/
def dockerNotRespondingMsg : GoStr :=
  "Docker is not responding. Maybe Docker is out of disk space? Try running `docker system prune`".toList

/-- `getDigestFromDockerOutput` (source lines 658-672): structured aux wins;
else a non-empty legacy short digest is resolved through the daemon's
image-inspection call (modelled as the function argument `inspect`, whose
`data.ID` result becomes the digest); else the distinct no-digest error. -/
def getDigestFromDockerOutput (inspect : GoStr → Except GoStr GoStr)
    (out : DockerOutput) : Except GoStr GoStr :=
  match out.aux with
  | some a => getDigestFromAux a
  | none =>
    if out.shortDigest ≠ [] then
      match inspect out.shortDigest with
      | Except.error e => Except.error e
      | Except.ok idv => Except.ok idv
    else Except.error dockerNotRespondingMsg

/-! ### Decoder theorems -/

lemma stepMessage_inr_output (st : LoopState) (now : Nat) (m : JSONMessage)
    (r : ReadResult) (h : stepMessage st now m = Sum.inr r) :
    r.output = dockerOutputEmpty ∧ r.err ≠ none := by
  simp only [stepMessage] at h
  split at h
  · rw [Sum.inr.injEq] at h
    subst h
    exact ⟨rfl, by simp⟩
  · split at h
    · rw [Sum.inr.injEq] at h
      subst h
      exact ⟨rfl, by simp⟩
    · split at h
      · split at h
        · split at h
          · rw [Sum.inr.injEq] at h
            subst h
            exact ⟨rfl, by simp⟩
          · cases h
        · rw [Sum.inr.injEq] at h
          subst h
          exact ⟨rfl, by simp⟩
      · split at h <;> cases h

lemma readDockerOutputAux_err_output (events : List (Nat × Except GoStr JSONMessage)) :
    ∀ st : LoopState, (readDockerOutputAux st events).err ≠ none →
      (readDockerOutputAux st events).output = dockerOutputEmpty := by
  induction events with
  | nil =>
    intro st h
    simp [readDockerOutputAux] at h
  | cons e rest ih =>
    intro st h
    obtain ⟨now, ev⟩ := e
    cases ev with
    | error e0 => simp [readDockerOutputAux]
    | ok m =>
      simp only [readDockerOutputAux] at h ⊢
      revert h
      cases hstep : stepMessage st now m with
      | inl st1 => exact fun h => ih st1 h
      | inr r => exact fun _ => (stepMessage_inr_output st now m r hstep).1

/-- C10: on every failure path of the decoder — a JSON decode error, an
error record, or a malformed graph-trace payload — the returned
`dockerOutput` is the zero value: digests or aux payloads observed earlier
in the stream are discarded, never returned alongside the error. -/
theorem readDockerOutput_failure_atomic (events : List (Nat × Except GoStr JSONMessage))
    (h : (readDockerOutput events).err ≠ none) :
    (readDockerOutput events).output = dockerOutputEmpty :=
  readDockerOutputAux_err_output events initialLoopState h

/-- Witness for C10: a stream that records a legacy digest and then hits a
JSON decode failure still returns the empty output. -/
theorem readDockerOutput_failure_atomic_witness :
    (readDockerOutput
      [(0, Except.ok ⟨"Successfully built 0123456789abcdef\n".toList, [], none, [],
          none, [], none⟩),
       (1, Except.error "invalid character".toList)]).output = dockerOutputEmpty :=
  readDockerOutput_failure_atomic _ (by decide)

/-- A decoded message that triggers none of the decoder's failure or
termination paths: no top-level error string, no structured error object,
and any graph-trace payload decodes cleanly. -/
def msgClean (m : JSONMessage) : Prop :=
  m.errorMessage = [] ∧ m.errorDetail = none ∧
    (messageIsFromBuildkit m = true →
      ∃ a, m.aux = some a ∧ a.asBuildkit = Except.ok ())

lemma stepMessage_clean (st : LoopState) (now : Nat) (m : JSONMessage)
    (h : msgClean m) : ∃ st1, stepMessage st now m = Sum.inl st1 := by
  obtain ⟨h1, h2, h3⟩ := h
  cases hres : stepMessage st now m with
  | inl st1 => exact ⟨st1, rfl⟩
  | inr r =>
    exfalso
    by_cases hbk : messageIsFromBuildkit m
    · obtain ⟨a, ha, hok⟩ := h3 hbk
      simp [stepMessage, h1, h2, hbk, ha, hok] at hres
    · cases haux : m.aux with
      | none => simp [stepMessage, h1, h2, hbk, haux] at hres
      | some a => simp [stepMessage, h1, h2, hbk, haux] at hres

lemma readDockerOutputAux_skip_clean (pre : List (Nat × Except GoStr JSONMessage))
    (hpre : ∀ e ∈ pre, ∃ now m, e = (now, Except.ok m) ∧ msgClean m) :
    ∀ (st : LoopState) (rest : List (Nat × Except GoStr JSONMessage)),
      ∃ st1, readDockerOutputAux st (pre ++ rest) = readDockerOutputAux st1 rest := by
  induction pre with
  | nil => exact fun st _ => ⟨st, rfl⟩
  | cons e pre' ih =>
    intro st rest
    obtain ⟨now, m, he, hclean⟩ := hpre e (List.mem_cons_self _ _)
    subst he
    obtain ⟨st1, hst1⟩ := stepMessage_clean st now m hclean
    obtain ⟨st2, hst2⟩ := ih (fun x hx => hpre x (List.mem_cons_of_mem _ hx)) st1 rest
    refine ⟨st2, ?_⟩
    simp only [List.cons_append, readDockerOutputAux, hst1]
    exact hst2

/-- C7: a stream containing an error record — a top-level error string or a
structured error object — fails at the first such record regardless of the
preceding valid records and of anything after it, returns the empty
`dockerOutput`, and its error message is the daemon message passed through
`cleanupDockerBuildError`. -/
theorem readDockerOutput_error_record (pre : List (Nat × Except GoStr JSONMessage))
    (t : Nat) (m : JSONMessage) (post : List (Nat × Except GoStr JSONMessage))
    (emsg : GoStr)
    (hpre : ∀ e ∈ pre, ∃ now m0, e = (now, Except.ok m0) ∧ msgClean m0)
    (hcase : (m.errorMessage = emsg ∧ emsg ≠ []) ∨
      (m.errorMessage = [] ∧ m.errorDetail = some emsg)) :
    (readDockerOutput (pre ++ (t, Except.ok m) :: post)).output = dockerOutputEmpty ∧
    (readDockerOutput (pre ++ (t, Except.ok m) :: post)).err =
      some (cleanupDockerBuildError emsg) := by
  obtain ⟨st1, h1⟩ :=
    readDockerOutputAux_skip_clean pre hpre initialLoopState ((t, Except.ok m) :: post)
  unfold readDockerOutput
  rw [h1]
  rcases hcase with ⟨he, hne⟩ | ⟨he, hd⟩
  · subst he
    simp only [readDockerOutputAux, stepMessage, if_pos hne]
    exact ⟨trivial, trivial⟩
  · simp only [readDockerOutputAux, stepMessage, he, hd]
    simp

/-- Witness for C7: a clean stream record, then a structured error object,
then trailing garbage; the result is empty and the wrapper phrase is
stripped from the message. -/
theorem readDockerOutput_error_record_witness :
    (readDockerOutput
      [(0, Except.ok ⟨"Step 1/3\n".toList, [], none, [], none, [], none⟩),
       (1, Except.ok ⟨[], [], none, [],
          some "failed to solve with frontend dockerfile.v0: failed to build LLB: boom".toList,
          [], none⟩),
       (2, Except.error "junk".toList)]).output = dockerOutputEmpty ∧
    (readDockerOutput
      [(0, Except.ok ⟨"Step 1/3\n".toList, [], none, [], none, [], none⟩),
       (1, Except.ok ⟨[], [], none, [],
          some "failed to solve with frontend dockerfile.v0: failed to build LLB: boom".toList,
          [], none⟩),
       (2, Except.error "junk".toList)]).err =
      some (cleanupDockerBuildError
        "failed to solve with frontend dockerfile.v0: failed to build LLB: boom".toList) := by
  have h := readDockerOutput_error_record
    [(0, Except.ok ⟨"Step 1/3\n".toList, [], none, [], none, [], none⟩)] 1
    ⟨[], [], none, [],
      some "failed to solve with frontend dockerfile.v0: failed to build LLB: boom".toList,
      [], none⟩
    [(2, Except.error "junk".toList)]
    "failed to solve with frontend dockerfile.v0: failed to build LLB: boom".toList
    (by
      intro e he
      simp only [List.mem_singleton] at he
      subst he
      exact ⟨0, _, rfl, rfl, rfl, fun hbk => absurd hbk (by decide)⟩)
    (Or.inr ⟨rfl, rfl⟩)
  exact h

lemma takeWhile_append_all {p : Char → Bool} (l1 l2 : List Char)
    (h : l1.all p = true) : (l1 ++ l2).takeWhile p = l1 ++ l2.takeWhile p := by
  induction l1 with
  | nil => simp
  | cons c cs ih =>
    simp only [List.all_cons, Bool.and_eq_true] at h
    simp [List.takeWhile_cons, h.1, ih h.2]

lemma dropWhile_append_all {p : Char → Bool} (l1 l2 : List Char)
    (h : l1.all p = true) : (l1 ++ l2).dropWhile p = l2.dropWhile p := by
  induction l1 with
  | nil => simp
  | cons c cs ih =>
    simp only [List.all_cons, Bool.and_eq_true] at h
    simp [List.dropWhile_cons, h.1, ih h.2]

lemma legacyDigestMatch_built (h : GoStr) (hne : h ≠ [])
    (hhex : h.all isHexLower = true) :
    legacyDigestMatch ("Successfully built ".toList ++ h ++ "\n".toList) = some h := by
  unfold legacyDigestMatch
  rw [if_pos (by
    rw [List.isPrefixOf_iff_prefix, List.append_assoc]
    exact List.prefix_append _ _)]
  simp only [List.append_assoc, List.drop_left,
    takeWhile_append_all h "\n".toList hhex, dropWhile_append_all h "\n".toList hhex,
    show List.takeWhile isHexLower "\n".toList = [] from rfl,
    show List.dropWhile isHexLower "\n".toList = "\n".toList from rfl,
    List.append_nil]
  rw [if_pos ⟨hne, by decide⟩]

/-- C8: digest recovery is a three-way case analysis: a stream line matching
the legacy `Successfully built <hex>` pattern sets the short digest to the
captured hex group; a structured aux payload, when present, wins and its
`"ID"` field becomes the digest; with only a short digest present the
image-inspection call on it resolves the canonical digest; with neither,
the distinct "daemon not responding / no digest" error is returned. -/
theorem digestRecovery_spec (h : GoStr) (inspect : GoStr → Except GoStr GoStr)
    (a : AuxRaw) (fields : List (GoStr × GoStr)) (idv s : GoStr) (t : Nat)
    (hne : h ≠ []) (hhex : h.all isHexLower = true) :
    ((readDockerOutput [(t, Except.ok
        ⟨"Successfully built ".toList ++ h ++ "\n".toList, [], none, [], none, [], none⟩)]).output
      = ⟨none, h⟩ ∧
     (readDockerOutput [(t, Except.ok
        ⟨"Successfully built ".toList ++ h ++ "\n".toList, [], none, [], none, [], none⟩)]).err
      = none) ∧
    (a.asDigestMap = Except.ok fields → fields.lookup "ID".toList = some idv →
      getDigestFromDockerOutput inspect ⟨some a, s⟩ = Except.ok idv) ∧
    (s ≠ [] → getDigestFromDockerOutput inspect ⟨none, s⟩ = inspect s) ∧
    (getDigestFromDockerOutput inspect ⟨none, []⟩ =
      Except.error dockerNotRespondingMsg) := by
  refine ⟨?_, ?_, ?_, ?_⟩
  · have hsp : streamPhase initialLoopState
        ⟨"Successfully built ".toList ++ h ++ "\n".toList, [], none, [], none, [], none⟩ =
        ⟨[], [], ⟨none, h⟩,
          [LogEvent.stream ("Successfully built ".toList ++ h ++ "\n".toList)]⟩ := by
      unfold streamPhase
      rw [if_pos (by
        show 0 < (("Successfully built ".toList ++ h ++ "\n".toList : GoStr)).length
        simp only [List.length_append,
          show ("Successfully built ".toList : GoStr).length = 19 from rfl,
          show ("\n".toList : GoStr).length = 1 from rfl]
        omega)]
      rw [legacyDigestMatch_built h hne hhex]
      rfl
    have hsm : stepMessage initialLoopState t
        ⟨"Successfully built ".toList ++ h ++ "\n".toList, [], none, [], none, [], none⟩ =
        Sum.inl ⟨[], [], ⟨none, h⟩,
          [LogEvent.stream ("Successfully built ".toList ++ h ++ "\n".toList)]⟩ := by
      simp only [stepMessage, hsp]
      simp [messageIsFromBuildkit]
    unfold readDockerOutput readDockerOutputAux
    rw [hsm]
    exact ⟨rfl, rfl⟩
  · intro hmap hid
    have hid2 : List.lookup ['I', 'D'] fields = some idv := hid
    simp [getDigestFromDockerOutput, getDigestFromAux, hmap, hid2]
  · intro hs
    simp only [getDigestFromDockerOutput, if_pos hs]
    cases inspect s <;> rfl
  · rfl

/-- Witness for C8: the spec's §8 legacy stream line, a concrete aux
payload, a concrete inspection call, and the empty output. -/
theorem digestRecovery_spec_witness :
    (readDockerOutput [(0, Except.ok
        ⟨"Successfully built ".toList ++ "abcdef0123456789".toList ++ "\n".toList,
          [], none, [], none, [], none⟩)]).output
      = ⟨none, "abcdef0123456789".toList⟩ ∧
    getDigestFromDockerOutput (fun d => Except.ok ("sha256:".toList ++ d))
      ⟨some ⟨Except.error "x".toList,
        Except.ok [("ID".toList, "sha256:feed".toList)]⟩, []⟩ =
      Except.ok "sha256:feed".toList ∧
    getDigestFromDockerOutput (fun d => Except.ok ("sha256:".toList ++ d))
      ⟨none, "abcdef0123456789".toList⟩ =
      Except.ok ("sha256:".toList ++ "abcdef0123456789".toList) ∧
    getDigestFromDockerOutput (fun d => Except.ok ("sha256:".toList ++ d))
      ⟨none, []⟩ = Except.error dockerNotRespondingMsg := by
  have h := digestRecovery_spec "abcdef0123456789".toList
    (fun d => Except.ok ("sha256:".toList ++ d))
    ⟨Except.error "x".toList, Except.ok [("ID".toList, "sha256:feed".toList)]⟩
    [("ID".toList, "sha256:feed".toList)] "sha256:feed".toList
    "abcdef0123456789".toList 0 (by decide) (by decide)
  exact ⟨h.1.1, h.2.1 rfl (by decide), h.2.2.1 (by decide), h.2.2.2⟩

/-- A message that carries only a progress report. -/
def progressOnlyMsg (id status : GoStr) (c n : Int) : JSONMessage :=
  ⟨[], status, some ⟨c, n⟩, id, none, [], none⟩

lemma skip_false {c : Int} {s : GoStr}
    (h : ¬(c = 0 ∧ (s = "Waiting".toList ∨ s = "Preparing".toList))) :
    (c == 0 && (s == "Waiting".toList || s == "Preparing".toList)) = false := by
  cases hcb : (c == 0) with
  | false => simp
  | true =>
    have hc : c = 0 := beq_iff_eq.mp hcb
    have hs : ¬(s = "Waiting".toList ∨ s = "Preparing".toList) := fun hs => h ⟨hc, hs⟩
    push_neg at hs
    rw [beq_eq_false_iff_ne.mpr hs.1, beq_eq_false_iff_ne.mpr hs.2]
    simp

lemma readAux_progress_cons (st : LoopState) (now : Nat) (id status : GoStr)
    (c n : Int) (rest : List (Nat × Except GoStr JSONMessage))
    (hid : id ≠ []) (hbk : id ≠ "moby.buildkit.trace".toList) :
    readDockerOutputAux st ((now, Except.ok (progressOnlyMsg id status c n)) :: rest) =
      readDockerOutputAux (progressStep st now id ⟨c, n⟩ status) rest := by
  have hbk2 : messageIsFromBuildkit (progressOnlyMsg id status c n) = false := by
    simp only [messageIsFromBuildkit, progressOnlyMsg]
    exact beq_eq_false_iff_ne.mpr hbk
  simp only [readDockerOutputAux, stepMessage, streamPhase, progressOnlyMsg] at *
  simp [hid, hbk2, progressOnlyMsg]

/-- C6: a progress record with a non-empty identifier is emitted iff it is
not suppressed (suppressed meaning current is 0 with status "Waiting" or
"Preparing") and one of the print conditions holds — never printed before,
current equals total, or the time since the identifier's last print exceeds
its wait window; the window becomes 5 time-units at the first print and
doubles on each print. Hence for identical-identifier, non-completion,
non-suppressed records at times t0 < t1 < t2 with t1 - t0 < 5 and
t2 - t0 > 5, exactly the records at t0 and t2 are emitted. -/
theorem progressThrottle_spec (id s0 s1 s2 : GoStr)
    (c0 n0 c1 n1 c2 n2 : Int) (t0 t1 t2 : Nat)
    (hid : id ≠ []) (hbk : id ≠ "moby.buildkit.trace".toList)
    (hsk0 : ¬(c0 = 0 ∧ (s0 = "Waiting".toList ∨ s0 = "Preparing".toList)))
    (hsk1 : ¬(c1 = 0 ∧ (s1 = "Waiting".toList ∨ s1 = "Preparing".toList)))
    (hsk2 : ¬(c2 = 0 ∧ (s2 = "Waiting".toList ∨ s2 = "Preparing".toList)))
    (hc1 : c1 ≠ n1)
    (ht01 : t0 < t1) (ht12 : t1 < t2) (hlt : t1 - t0 < 5) (hgt : 5 < t2 - t0) :
    (∀ (st : LoopState) (now : Nat) (pid : GoStr) (p : JSONProgress) (status : GoStr),
      (progressStep st now pid p status).logs =
          st.logs ++ [LogEvent.progressLine pid status p.current p.total now] ↔
        (¬(p.current = 0 ∧ (status = "Waiting".toList ∨ status = "Preparing".toList)) ∧
          (st.lastPrinted.lookup pid = none ∨ p.current = p.total ∨
            (st.printWait.lookup pid).getD 0 <
              now - (st.lastPrinted.lookup pid).getD 0))) ∧
    readDockerOutput
        [(t0, Except.ok (progressOnlyMsg id s0 c0 n0)),
         (t1, Except.ok (progressOnlyMsg id s1 c1 n1)),
         (t2, Except.ok (progressOnlyMsg id s2 c2 n2))] =
      ⟨dockerOutputEmpty,
        [LogEvent.progressLine id s0 c0 n0 t0, LogEvent.progressLine id s2 c2 n2 t2],
        none⟩ := by
  constructor
  · intro st now pid p status
    simp only [progressStep]
    split
    · rename_i hcond
      simp only [Bool.and_eq_true, Bool.or_eq_true, Bool.not_eq_true',
        Option.isNone_iff_eq_none, beq_iff_eq, decide_eq_true_eq,
        Bool.and_eq_false_iff, Bool.or_eq_false_iff, beq_eq_false_iff_ne] at hcond
      constructor
      · intro _
        obtain ⟨hp, hs⟩ := hcond
        refine ⟨?_, or_assoc.mp hp⟩
        rcases hs with hs | hs
        · exact fun hx => hs hx.1
        · rcases hs with ⟨hs1, hs2⟩
          exact fun hx => hx.2.elim hs1 hs2
      · intro _
        simp
    · rename_i hcond
      constructor
      · intro hlog
        exfalso
        have := congrArg List.length hlog
        simp at this
      · intro ⟨hns, hpr⟩
        exfalso
        apply hcond
        simp only [Bool.and_eq_true, Bool.or_eq_true, Option.isNone_iff_eq_none,
          beq_iff_eq, decide_eq_true_eq]
        refine ⟨?_, ?_⟩
        · rcases hpr with hpr | hpr | hpr
          · exact Or.inl (Or.inl hpr)
          · exact Or.inl (Or.inr hpr)
          · exact Or.inr hpr
        · rw [Bool.not_eq_true', skip_false hns]
  · have hps0 : progressStep initialLoopState t0 id ⟨c0, n0⟩ s0 =
        ⟨[(id, t0)], [(id, 5)], dockerOutputEmpty,
          [LogEvent.progressLine id s0 c0 n0 t0]⟩ := by
      unfold progressStep initialLoopState
      rw [if_pos (by
        rw [skip_false hsk0]
        simp [List.lookup])]
      simp [List.lookup]
    have hps1 : progressStep ⟨[(id, t0)], [(id, 5)], dockerOutputEmpty,
        [LogEvent.progressLine id s0 c0 n0 t0]⟩ t1 id ⟨c1, n1⟩ s1 =
        ⟨[(id, t0)], [(id, 5)], dockerOutputEmpty,
          [LogEvent.progressLine id s0 c0 n0 t0]⟩ := by
      unfold progressStep
      rw [if_neg (by
        simp only [List.lookup, beq_self_eq_true, Option.getD_some, Option.isNone_some,
          beq_eq_false_iff_ne.mpr hc1, decide_eq_false (by omega : ¬(5 < t1 - t0))]
        simp)]
    have hps2 : progressStep ⟨[(id, t0)], [(id, 5)], dockerOutputEmpty,
        [LogEvent.progressLine id s0 c0 n0 t0]⟩ t2 id ⟨c2, n2⟩ s2 =
        ⟨[(id, t2), (id, t0)], [(id, 10), (id, 5)], dockerOutputEmpty,
          [LogEvent.progressLine id s0 c0 n0 t0,
           LogEvent.progressLine id s2 c2 n2 t2]⟩ := by
      unfold progressStep
      rw [if_pos (by
        rw [skip_false hsk2]
        simp only [List.lookup, beq_self_eq_true, Option.getD_some, Option.isNone_some,
          decide_eq_true hgt]
        simp)]
      simp [List.lookup]
    unfold readDockerOutput
    rw [readAux_progress_cons _ _ _ _ _ _ _ hid hbk, hps0,
      readAux_progress_cons _ _ _ _ _ _ _ hid hbk, hps1,
      readAux_progress_cons _ _ _ _ _ _ _ hid hbk, hps2]
    rfl

/-- Witness for C6 at concrete identifiers, counters and times 0, 3, 7. -/
theorem progressThrottle_spec_witness :
    readDockerOutput
        [(0, Except.ok (progressOnlyMsg "abc".toList "Downloading".toList 1 10)),
         (3, Except.ok (progressOnlyMsg "abc".toList "Downloading".toList 2 10)),
         (7, Except.ok (progressOnlyMsg "abc".toList "Downloading".toList 3 10))] =
      ⟨dockerOutputEmpty,
        [LogEvent.progressLine "abc".toList "Downloading".toList 1 10 0,
         LogEvent.progressLine "abc".toList "Downloading".toList 3 10 7],
        none⟩ :=
  (progressThrottle_spec "abc".toList "Downloading".toList "Downloading".toList
    "Downloading".toList 1 10 2 10 3 10 0 3 7
    (by decide) (by decide) (by decide) (by decide) (by decide) (by decide)
    (by decide) (by decide) (by decide) (by decide)).2

end TiltBuild
